import Mathlib

/-!
# Verification of the `pdf_compliance` criterion-evaluation engine

Shallow embedding of the repository's Python sources:

* `compliance_config.py` — the Criterion dataclasses and the `CRITERIA` catalog,
  plus the `CRITERIA_BY_ID` dict comprehension;
* `evaluate_pdf.py` — `_resolve_extractor`, `_execute_extractor`,
  `_evaluate_quantitative`, `_evaluate_existential` and `run`;
* `src/geometry.py` — `_percentile`, `_page_metrics_single`, `page_metrics`;
* `src/fonts.py` — `font_inventory` (Counter + `most_common`).

Python machine values are modelled with exact rationals (`ℚ`); Python's
`round` (banker's rounding, used by geometry and fonts) is modelled as
round-half-to-even on `ℚ`.  Raised Python exceptions are modelled with
`Except String`; an `Except.error` is an exception that propagates to the
caller.
-/

set_option autoImplicit false

namespace PdfCompliance

/-! ## Python numeric helpers -/

/-- Round-half-to-even on `ℚ`, the tie-breaking rule of Python's `round`. -/
def roundHalfEven (q : ℚ) : ℤ :=
  let f : ℤ := ⌊q⌋
  let r : ℚ := q - f
  if r < 1/2 then f
  else if 1/2 < r then f + 1
  else if f % 2 = 0 then f else f + 1

/-- Python `round(q, 1)`. -/
def pyRound1 (q : ℚ) : ℚ := (roundHalfEven (q * 10) : ℚ) / 10

/-- Python `round(q, 2)`. -/
def pyRound2 (q : ℚ) : ℚ := (roundHalfEven (q * 100) : ℚ) / 100

/-- Decimal-string parsing, modelling CPython `float(str)` on plain decimal
literals `[+-] digits [. digits]`: everything else is treated as unparsable
(raising `ValueError` in Python). -/
def parseDecimalCore (cs : List Char) : Option ℚ :=
  let digits := fun (l : List Char) => l.all (·.isDigit)
  let natOf := fun (l : List Char) =>
    l.foldl (fun n c => n * 10 + (c.toNat - '0'.toNat)) 0
  match cs.splitOn '.' with
  | [intPart] =>
      if intPart ≠ [] ∧ digits intPart then some (natOf intPart : ℚ) else none
  | [intPart, fracPart] =>
      if (intPart ≠ [] ∨ fracPart ≠ []) ∧ digits intPart ∧ digits fracPart then
        some ((natOf intPart : ℚ) + (natOf fracPart : ℚ) / (10 ^ fracPart.length : ℕ))
      else none
  | _ => none

/-- `float(s)` for a string `s` (sign handling wrapped around the core). -/
def parseDecimal (s : String) : Option ℚ :=
  match s.toList with
  | '+' :: rest => parseDecimalCore rest
  | '-' :: rest => (parseDecimalCore rest).map (fun q => -q)
  | cs => parseDecimalCore cs

/-! ## Python string helpers

Structural (kernel-computable) models of `str.split(sep)` and
`sep.join(parts)` for a one-character separator, the only shape the engine
uses (`"."` and `"+"`). -/

/-- `str.split(sep)` on the character list: `"".split` gives `[""]`, and
separators at the ends produce empty segments, as in Python. -/
def splitChar (sep : Char) : List Char → List (List Char)
  | [] => [[]]
  | c :: rest =>
      match splitChar sep rest with
      | [] => if c = sep then [[], []] else [[c]]
      | g :: gs => if c = sep then [] :: g :: gs else (c :: g) :: gs

/-- `s.split(sep)` producing strings. -/
def pySplit (sep : Char) (s : String) : List String :=
  (splitChar sep s.toList).map (fun g => ⟨g⟩)

/-- `sep.join(parts)`. -/
def joinSep (sep : Char) : List String → String
  | [] => ""
  | [x] => x
  | x :: y :: rest => x ++ String.singleton sep ++ joinSep sep (y :: rest)

/-! ## Python object model

`PyObj` models the run-time values the engine manipulates: modules (with an
attribute table), `dict`s, callables (invoked with the document path; an
`Except.error` result models the call raising), and scalar leaves. -/

inductive PyObj : Type where
  | module (attrs : List (String × PyObj))
  | dict (entries : List (String × PyObj))
  | func (f : String → Except String PyObj)
  | num (q : ℚ)
  | boolV (b : Bool)
  | str (s : String)
  | noneV

namespace PyObj

/-- Python `callable(obj)` for the modelled objects. -/
def callable : PyObj → Bool
  | .func _ => true
  | _ => false

/-- Python truthiness `bool(obj)`. -/
def truthy : PyObj → Bool
  | .module _ => true
  | .dict entries => !entries.isEmpty
  | .func _ => true
  | .num q => q ≠ 0
  | .boolV b => b
  | .str s => s ≠ ""
  | .noneV => false

/-- Python `float(obj)`: numbers and bools coerce, decimal strings parse,
everything else raises (modelled as `none`). -/
def pyFloat : PyObj → Option ℚ
  | .num q => some q
  | .boolV b => some (if b then 1 else 0)
  | .str s => parseDecimal s
  | _ => none

/-- Python `str(obj)`, used only to build diagnostic messages. -/
def pyStrOf : PyObj → String
  | .module _ => "<module>"
  | .dict _ => "<dict>"
  | .func _ => "<function>"
  | .num q => toString q
  | .boolV b => if b then "True" else "False"
  | .str s => s
  | .noneV => "None"

/-- `hasattr`/`getattr` for the modelled objects: only modules expose a
model-visible attribute table. -/
def getattrOpt : PyObj → String → Option PyObj
  | .module attrs, a => (attrs.find? (fun kv => kv.1 = a)).map Prod.snd
  | _, _ => none

end PyObj

/-! ## Python `dict` model

Insertion-ordered association lists with last-wins update, the semantics of
`d[k] = v` on a CPython `dict` (an existing key keeps its position, its value
is overwritten; a new key is appended). -/

/-- `d[k] = v` on an insertion-ordered dict. -/
def dictInsert {α : Type} (d : List (String × α)) (k : String) (v : α) :
    List (String × α) :=
  match d with
  | [] => [(k, v)]
  | (k2, v2) :: rest =>
      if k2 = k then (k2, v) :: rest else (k2, v2) :: dictInsert rest k v

/-- `d[k]` / `d.get(k)`. -/
def dictGet {α : Type} (d : List (String × α)) (k : String) : Option α :=
  (d.find? (fun kv => kv.1 = k)).map Prod.snd

/-! ## `compliance_config.py` — Criterion dataclasses and the catalog -/

/-- The shared fields of the `Criterion` base dataclass. -/
structure CriterionBase where
  id : String
  description : String
  severity : String
  extractor : String
deriving DecidableEq, Repr

/-- The five `Criterion` subclasses as a tagged union; each variant carries
the base fields plus its type-specific comparison parameters. -/
inductive Criterion : Type where
  | quantitative (base : CriterionBase) (target tolerance min_value max_value : Option ℚ)
      (units : String)
  | categorical (base : CriterionBase) (allowed_values : List String)
      (proportion_threshold : Option ℚ)
  | existential (base : CriterionBase) (must_be_true : Bool)
  | structural (base : CriterionBase) (expected_structure : String)
  | qualitative (base : CriterionBase) (prompt_template : String) (llm_model : String)
deriving DecidableEq, Repr

namespace Criterion

/-- The base-dataclass fields of any variant. -/
def base : Criterion → CriterionBase
  | .quantitative b _ _ _ _ _ => b
  | .categorical b _ _ => b
  | .existential b _ => b
  | .structural b _ => b
  | .qualitative b _ _ => b

/-- `rule.id`. -/
def cid (c : Criterion) : String := c.base.id

/-- `rule.severity`. -/
def severity (c : Criterion) : String := c.base.severity

/-- `rule.extractor`. -/
def extractor (c : Criterion) : String := c.base.extractor

/-- `type(rule).__name__`, used in the "not yet supported" skip reason. -/
def typeName : Criterion → String
  | .quantitative _ _ _ _ _ _ => "QuantitativeCriterion"
  | .categorical _ _ _ => "CategoricalCriterion"
  | .existential _ _ => "ExistentialCriterion"
  | .structural _ _ => "StructuralCriterion"
  | .qualitative _ _ _ => "QualitativeCriterion"

end Criterion

/-- The `CRITERIA` list of `compliance_config.py`, transcribed entry by
entry in declaration order. -/
def CRITERIA : List Criterion := [
  .quantitative ⟨"L01W", "Page width must be Letter 8.5 in (21.59 cm)", "error",
      "geometry.page_metrics.page_w_cm"⟩ (some 21.59) (some 0.2) none none "cm",
  .quantitative ⟨"L01H", "Page height must be Letter 11 in (27.94 cm)", "error",
      "geometry.page_metrics.page_h_cm"⟩ (some 27.94) (some 0.2) none none "cm",
  .quantitative ⟨"L02T", "Top margin exactly 4.3 cm ±0.2 cm", "warning",
      "geometry.page_metrics.top_margin_cm"⟩ (some 4.3) (some 0.2) none none "cm",
  .quantitative ⟨"L02B", "Bottom margin exactly 4.3 cm ±0.2 cm", "warning",
      "geometry.page_metrics.bottom_margin_cm"⟩ (some 4.3) (some 0.2) none none "cm",
  .quantitative ⟨"L02L", "Left margin exactly 4.8 cm ±0.2 cm", "warning",
      "geometry.page_metrics.left_margin_cm"⟩ (some 4.8) (some 0.2) none none "cm",
  .quantitative ⟨"L02R", "Right margin exactly 4.8 cm ±0.2 cm", "warning",
      "geometry.page_metrics.right_margin_cm"⟩ (some 4.8) (some 0.2) none none "cm",
  .structural ⟨"L03", "Single column, double-spaced throughout", "error",
      "geometry.structure.single_column_double_spaced"⟩ "single_column_double_spaced",
  .quantitative ⟨"L04", "Manuscript length 20-35 pages (≤40 for review)", "warning",
      "structure.page_count"⟩ none none (some 20) (some 35) "pages",
  .structural ⟨"L05", "All manuscript pages numbered consecutively", "error",
      "structure.consecutive_page_numbers"⟩ "consecutive_page_numbers",
  .quantitative ⟨"L06", "Footnote baseline 2.6 cm from bottom", "warning",
      "geometry.page_metrics.footnote_baseline_cm"⟩ (some 2.6) (some 0.2) none none "cm",
  .categorical ⟨"T01", "Default (most frequent) font must be Times New Roman", "error",
      "fonts.most_common_body_font"⟩ ["TimesNewRomanPSMT", "Times New Roman"] none,
  .quantitative ⟨"T02_title", "Title font size 14 pt ±1 pt", "warning",
      "fonts.fontsize.title_pt"⟩ (some 14) (some 0) none none "pt",
  .quantitative ⟨"T02_body", "Body text 10 pt ±1 pt", "warning",
      "fonts.fontsize.body_pt"⟩ (some 10) (some 0) none none "pt",
  .quantitative ⟨"T02_captions", "Captions / footnotes / affiliations 8 pt ±1 pt", "warning",
      "fonts.fontsize.smalltext_pt"⟩ (some 8) (some 0) none none "pt",
  .existential ⟨"S00", "Dedicated title page present (page 1)", "error",
      "structure.has_title_page"⟩ true,
  .qualitative ⟨"S01", "Title ≤15 words, grammatical, no unexplained abbreviations", "warning",
      "structure.title_text"⟩ "prompts/title_check.jinja2" "gpt-4o-mini",
  .quantitative ⟨"S02", "Abstract ≤250 words", "error",
      "structure.abstract_wordcount"⟩ none none none (some 250) "words",
  .qualitative ⟨"S03", "Conclusions present, distinct from abstract, cover key points", "warning",
      "structure.conclusions_vs_abstract"⟩ "prompts/conclusions_check.jinja2" "gpt-4o-mini",
  .existential ⟨"S04", "Highlights file present (3-5 bullets, ≤85 chars each)", "warning",
      "structure.highlights_ok"⟩ true,
  .existential ⟨"S05", "CRediT author-contribution statement present", "warning",
      "structure.has_credit_statement"⟩ true,
  .existential ⟨"S06", "Generative-AI use declaration present if AI mentioned", "warning",
      "structure.ai_use_statement"⟩ true,
  .quantitative ⟨"S07", "Keywords section with 1-7 English keywords", "error",
      "structure.keyword_count"⟩ none none (some 1) (some 7) "keywords",
  .quantitative ⟨"R01", "Total references 35-55 (warn if review >55 but ≤120)", "warning",
      "references.count"⟩ none none (some 35) (some 55) "references",
  .quantitative ⟨"R02", "≥30 % references from last 5 years", "warning",
      "references.share_recent_pct"⟩ none none (some 30) none "percent",
  .quantitative ⟨"R03", "≤20 % arXiv / non-peer-reviewed", "warning",
      "references.share_preprint_pct"⟩ none none none (some 20) "percent",
  .structural ⟨"R04", "Bulk citation ranges must include commentary", "warning",
      "references.bulk_citation_commentary"⟩ "commentary_present",
  .quantitative ⟨"R05", "Cite ≥3 recent Pattern-Recognition papers", "warning",
      "references.count_pattern_recognition"⟩ none none (some 3) none "papers"
]

/-- The dict comprehension `{c.id: c for c in criteria}`, evaluated
left-to-right with CPython dict-assignment semantics. -/
def criteriaById (cs : List Criterion) : List (String × Criterion) :=
  cs.foldl (fun d c => dictInsert d c.cid c) []

/-- `CRITERIA_BY_ID = {c.id: c for c in CRITERIA}`. -/
def CRITERIA_BY_ID : List (String × Criterion) := criteriaById CRITERIA

/-! ## `evaluate_pdf.py` — extractor resolution and the evaluation loop -/

/-- Outcome of `importlib.import_module(name)` for one module name. -/
inductive ImportOutcome : Type where
  | found (m : PyObj)
  | notFound
  | raises (msg : String)

/-- The import system: what each module name resolves to.  Unlisted names
are not importable (`ModuleNotFoundError`). -/
abbrev Env : Type := List (String × ImportOutcome)

/-- `importlib.import_module(name)`.  CPython raises `ValueError: Empty
module name` (not `ModuleNotFoundError`) when `name` is the empty string. -/
def pyImport (env : Env) (name : String) : ImportOutcome :=
  if name = "" then .raises "Empty module name"
  else ((env.find? (fun kv => kv.1 = name)).map Prod.snd).getD .notFound

/-- Result triple of `_resolve_extractor`: `(implemented, payload, message)`,
where the payload on success is the cursor object and the attribute segments
still to walk. -/
inductive ResolveOut : Type where
  | failure (msg : String)
  | success (obj : PyObj) (tail : List String)

/-- The module-import loop `for i in range(len(parts), 0, -1)`: try the
longest dotted prefix first, continue past `ModuleNotFoundError`, propagate
any other exception.  `none` means the loop fell through (`else` clause). -/
def tryImportAux (env : Env) (parts : List String) :
    Nat → Except String (Option (PyObj × List String × List String))
  | 0 => .ok none
  | i + 1 =>
      match pyImport env (joinSep '.' (parts.take (i + 1))) with
      | .found m => .ok (some (m, parts.take (i + 1), parts.drop (i + 1)))
      | .notFound => tryImportAux env parts i
      | .raises msg => .error msg

/-- The attribute walk of `_resolve_extractor`: stop at the first callable
cursor (the remaining segments are left for after the call), fail on a
missing attribute — naming the consumed dotted prefix `parts[:i+idx]`, as
the source message does — otherwise step with `getattr`. -/
def walkAttrs (consumed : List String) : PyObj → List String → ResolveOut
  | obj, [] => .success obj []
  | obj, attr :: rest =>
      if obj.callable then .success obj (attr :: rest)
      else
        match obj.getattrOpt attr with
        | none =>
            .failure ("attribute '" ++ attr ++ "' missing in '" ++
              joinSep '.' consumed ++ "'")
        | some o2 => walkAttrs (consumed ++ [attr]) o2 rest

/-- `_resolve_extractor(path)`.  An `Except.error` is an exception escaping
the function (only a non-`ModuleNotFoundError` import failure can cause
one). -/
def resolveExtractor (env : Env) (path : String) : Except String ResolveOut :=
  let parts := pySplit '.' path
  if parts = [] then .ok (.failure "empty extractor path")
  else
    match tryImportAux env parts parts.length with
    | .error e => .error e
    | .ok none => .ok (.failure ("module not found in path '" ++ path ++ "'"))
    | .ok (some (m, consumed, chain)) => .ok (walkAttrs consumed m chain)

/-- Result pair of `_execute_extractor`: `(None, msg)` or `(result, "")`. -/
inductive ExecOut : Type where
  | failed (msg : String)
  | value (v : PyObj)

/-- The drill-down loop of `_execute_extractor`: dict-key lookup first,
then attribute lookup, else a "key/attr not found" failure. -/
def drillDown : PyObj → List String → ExecOut
  | r, [] => .value r
  | r, attr :: rest =>
      match r with
      | .dict entries =>
          match dictGet entries attr with
          | some v => drillDown v rest
          | none =>
              match r.getattrOpt attr with
              | some v => drillDown v rest
              | none => .failed ("key/attr '" ++ attr ++ "' not found in extractor result")
      | _ =>
          match r.getattrOpt attr with
          | some v => drillDown v rest
          | none => .failed ("key/attr '" ++ attr ++ "' not found in extractor result")

/-- `if callable(obj): result = obj(pdf_path) else: result = obj`, inside
the `try` block of `_execute_extractor`. -/
def callOrPass (pdfPath : String) (obj : PyObj) : Except String PyObj :=
  if obj.callable then
    match obj with
    | .func f => f pdfPath
    | _ => .ok obj
  else .ok obj

/-- `_execute_extractor(pdf_path, extractor_path)`.  The call and the
drill-down run inside `try/except Exception`, so an exception raised by the
provider call becomes a `"runtime error: ..."` failure; only an exception
escaping `_resolve_extractor` propagates. -/
def executeExtractor (env : Env) (pdfPath : String) (extractorPath : String) :
    Except String ExecOut :=
  match resolveExtractor env extractorPath with
  | .error e => .error e
  | .ok (.failure msg) => .ok (.failed msg)
  | .ok (.success obj tail) =>
      match callOrPass pdfPath obj with
      | .error exc => .ok (.failed ("runtime error: " ++ exc))
      | .ok r => .ok (drillDown r tail)

/-- `_evaluate_quantitative(rule, value)`: the detail is the coerced float
on success and the non-numeric diagnostic string on coercion failure. -/
def evaluateQuantitative (target tolerance min_value max_value : Option ℚ)
    (value : PyObj) : Bool × PyObj :=
  match value.pyFloat with
  | none => (false, .str ("non-numeric value (" ++ value.pyStrOf ++ ")"))
  | some val =>
      match target, tolerance with
      | some t, some tol => (|val - t| ≤ tol, .num val)
      | _, _ =>
          match min_value, max_value with
          | some mn, some mx => (mn ≤ val ∧ val ≤ mx, .num val)
          | some mn, none => (mn ≤ val, .num val)
          | none, some mx => (val ≤ mx, .num val)
          | none, none => (true, .num val)

/-- `_evaluate_existential(rule, value)`. -/
def evaluateExistential (must_be_true : Bool) (value : PyObj) : Bool × PyObj :=
  (value.truthy = must_be_true, value)

/-- One report entry: `status` plus at most one of `value` / `reason`. -/
structure Verdict : Type where
  status : String
  value : Option PyObj
  reason : Option String

/-- The report dict: Criterion id → Verdict, insertion ordered. -/
abbrev Report : Type := List (String × Verdict)

/-- The body of `run`'s loop for a single rule.  An `Except.error` models an
exception thrown out of the loop (aborting the whole run). -/
def evalRule (env : Env) (pdfPath : String) (rule : Criterion) :
    Except String Verdict :=
  if rule.extractor = "" then .ok ⟨"skipped", none, some "no extractor path"⟩
  else
    match executeExtractor env pdfPath rule.extractor with
    | .error e => .error e
    | .ok (.failed msg) => .ok ⟨"skipped", none, some msg⟩
    | .ok (.value val) =>
        match rule with
        | .quantitative _ target tolerance mn mx _ =>
            .ok ⟨if (evaluateQuantitative target tolerance mn mx val).1 then "ok"
                 else rule.severity,
                 some (evaluateQuantitative target tolerance mn mx val).2, none⟩
        | .existential _ must =>
            .ok ⟨if (evaluateExistential must val).1 then "ok" else rule.severity,
                 some (evaluateExistential must val).2, none⟩
        | _ => .ok ⟨"skipped", none, some (rule.typeName ++ " not yet supported")⟩

/-- The loop of `run`, threading the report dict. -/
def runAux (env : Env) (pdfPath : String) :
    List Criterion → Report → Except String Report
  | [], report => .ok report
  | rule :: rest, report =>
      match evalRule env pdfPath rule with
      | .error e => .error e
      | .ok v => runAux env pdfPath rest (dictInsert report rule.cid v)

/-- `run(pdf_path)` over a given catalog, started from the empty report. -/
def run (env : Env) (pdfPath : String) (rules : List Criterion) :
    Except String Report :=
  runAux env pdfPath rules []

/-! ## `src/geometry.py` — layout metrics

A document is a list of pages; a page carries its rectangle and the block →
line → span tree delivered by `page.get_text("dict")`, with each span
reduced to its `bbox`.  All lengths are in points. -/

/-- One text span's bounding box `(x0, y0, x1, y1)`. -/
structure Span where
  x0 : ℚ
  y0 : ℚ
  x1 : ℚ
  y1 : ℚ
deriving DecidableEq, Repr

/-- One page: `page.rect` dimensions plus the block/line/span tree. -/
structure Page where
  width : ℚ
  height : ℚ
  blocks : List (List (List Span))
deriving DecidableEq, Repr

namespace Page

/-- The span-collection loop of `_page_metrics_single` (blocks → lines →
spans, in order). -/
def spans (p : Page) : List Span := p.blocks.flatten.flatten

end Page

/-- Ascending insertion. -/
def insertAsc (x : ℚ) : List ℚ → List ℚ
  | [] => [x]
  | y :: ys => if x ≤ y then x :: y :: ys else y :: insertAsc x ys

/-- Python `sorted(data)` on rationals. -/
def sortAsc (l : List ℚ) : List ℚ := l.foldr insertAsc []

/-- `min(iterable)` over a nonempty list (`0` stands in for the
`ValueError` on an empty one, which no caller reaches). -/
def minListD : List ℚ → ℚ
  | [] => 0
  | x :: xs => xs.foldl min x

/-- `statistics.median` (`0` stands in for the `StatisticsError` on an
empty list, which no caller reaches).  Note `int(k)` truncates toward zero,
which on the nonnegative `k` arising here is the floor. -/
def statMedian (l : List ℚ) : ℚ :=
  let s := sortAsc l
  let n := l.length
  if n = 0 then 0
  else if n % 2 = 1 then s.getD (n / 2) 0
  else (s.getD (n / 2 - 1) 0 + s.getD (n / 2) 0) / 2

/-- `_percentile(data, pct)`.  `int(k)` truncates toward zero, which on the
nonnegative `k` arising here is the floor. -/
def percentile (data : List ℚ) (pct : ℚ) : ℚ :=
  if data = [] then 0
  else
    let ds := sortAsc data
    let k : ℚ := ((data.length - 1 : ℕ) : ℚ) * pct / 100
    let f : ℕ := (⌊k⌋).toNat
    let c : ℕ := min (f + 1) (data.length - 1)
    if f = c then ds.getD f 0
    else ds.getD f 0 * ((c : ℚ) - k) + ds.getD c 0 * (k - (f : ℚ))

/-- `1 pt` in cm (`_PT_TO_CM = 2.54 / 72.0`). -/
def PT_TO_CM : ℚ := 2.54 / 72

/-- The per-page record returned by `_page_metrics_single` (points). -/
structure PageRec where
  page_w : ℚ
  page_h : ℚ
  left_margin : ℚ
  right_margin : ℚ
  top_margin : ℚ
  bottom_margin : ℚ
  two_column : Bool
  footnote_baseline : ℚ
deriving DecidableEq, Repr

/-- `_page_metrics_single(page)`. -/
def pageMetricsSingle (p : Page) : PageRec :=
  let w := p.width
  let h := p.height
  let sps := p.spans
  let x0s := sps.map Span.x0
  let x1s := sps.map Span.x1
  let y0s := sps.map Span.y0
  let y1s := sps.map Span.y1
  if x0s = [] then
    -- blank-page fallback: margins set to the full page dimensions
    ⟨w, h, w, w, h, h, false, 0⟩
  else
    let left := percentile x0s 5
    let right := w - percentile x1s 95
    let top := percentile y0s 5
    let bottom := h - percentile y1s 95
    let centres := sps.map (fun sp => (sp.x0 + sp.x1) / 2)
    let buckets := (centres.map (fun c => pyRound1 (c / w))).dedup
    let two_col := decide (6 < buckets.length)
    let foot := h - minListD y0s
    ⟨w, h, left, right, top, bottom, two_col, foot⟩

/-- The document-level mapping returned by `page_metrics` (cm, rounded),
with the per-page records stashed under `pages` (the `"_pages"` key). -/
structure GeoOut where
  page_w_cm : ℚ
  page_h_cm : ℚ
  left_margin_cm : ℚ
  right_margin_cm : ℚ
  top_margin_cm : ℚ
  bottom_margin_cm : ℚ
  two_column : Bool
  footnote_baseline_cm : ℚ
  pages : List PageRec
deriving DecidableEq, Repr

/-- `page_metrics(pdf_path)` over the abstract document.  `none` models the
exception `statistics.median` raises on a zero-page document. -/
def page_metrics (doc : List Page) : Option GeoOut :=
  match doc with
  | [] => none
  | _ =>
      let per_page := doc.map pageMetricsSingle
      some {
        page_w_cm := pyRound2 (statMedian (per_page.map PageRec.page_w) * PT_TO_CM)
        page_h_cm := pyRound2 (statMedian (per_page.map PageRec.page_h) * PT_TO_CM)
        left_margin_cm := pyRound2 (minListD (per_page.map PageRec.left_margin) * PT_TO_CM)
        right_margin_cm := pyRound2 (minListD (per_page.map PageRec.right_margin) * PT_TO_CM)
        top_margin_cm := pyRound2 (minListD (per_page.map PageRec.top_margin) * PT_TO_CM)
        bottom_margin_cm := pyRound2 (minListD (per_page.map PageRec.bottom_margin) * PT_TO_CM)
        two_column := (per_page.map PageRec.two_column).all id
        footnote_baseline_cm :=
          pyRound2 (statMedian (per_page.map PageRec.footnote_baseline) * PT_TO_CM)
        pages := per_page }

/-! ## `src/fonts.py` — font inventory -/

/-- One `LTChar`: its embedded font name and size. -/
structure FChar where
  fontname : String
  size : ℚ
deriving DecidableEq, Repr

/-- `raw_name.split("+")[-1]` (note: the segment after the *last* `+`;
`pySplit` never returns `[]`, matching Python `split`). -/
def stripSubset (s : String) : String := (pySplit '+' s).getLastD ""

/-- `counter[tag] += 1` on a `Counter` modelled as an insertion-ordered
association list. -/
def counterAdd : List ((String × ℚ) × Nat) → (String × ℚ) → List ((String × ℚ) × Nat)
  | [], t => [(t, 1)]
  | (u, c) :: rest, t =>
      if u = t then (u, c + 1) :: rest else (u, c) :: counterAdd rest t

/-- The counting loop of `font_inventory`. -/
def counterOf (ts : List (String × ℚ)) : List ((String × ℚ) × Nat) :=
  ts.foldl counterAdd []

/-- Stable descending insertion by count (equal counts keep first-seen
order, as CPython's stable `sorted` does in `Counter.most_common`). -/
def insertByCount (x : (String × ℚ) × Nat) :
    List ((String × ℚ) × Nat) → List ((String × ℚ) × Nat)
  | [] => [x]
  | y :: ys => if y.2 < x.2 then x :: y :: ys else y :: insertByCount x ys

/-- `Counter.most_common()`: the entries stably sorted by descending count. -/
def mostCommon (entries : List ((String × ℚ) × Nat)) : List ((String × ℚ) × Nat) :=
  entries.foldl (fun acc x => insertByCount x acc) []

/-- `font_inventory(pdf_path, first_n_pages=5)` over the abstract document
(a list of pages, each the depth-first list of its `LTChar`s;
`extract_pages(..., maxpages=n)` yields the first `n` pages). -/
def font_inventory (doc : List (List FChar)) (first_n_pages : Nat := 5) :
    List ((String × ℚ) × Nat) :=
  let tags := ((doc.take first_n_pages).flatten).map
    (fun ch => (stripSubset ch.fontname, pyRound1 ch.size))
  mostCommon (counterOf tags)

/-! ## Supporting lemmas: list minima -/

theorem foldl_min_le_init (xs : List ℚ) (a : ℚ) : xs.foldl min a ≤ a := by
  induction xs generalizing a with
  | nil => simp
  | cons x xs ih =>
      simpa using le_trans (ih (min a x)) (min_le_left a x)

theorem foldl_min_le_mem (xs : List ℚ) (a : ℚ) :
    ∀ x ∈ xs, xs.foldl min a ≤ x := by
  induction xs generalizing a with
  | nil => intro x hx; cases hx
  | cons y ys ih =>
      intro x hx
      rcases List.mem_cons.mp hx with h | h
      · subst h
        simpa using le_trans (foldl_min_le_init ys (min a x)) (min_le_right a x)
      · simpa using ih (min a y) x h

theorem foldl_min_mem (xs : List ℚ) (a : ℚ) :
    xs.foldl min a = a ∨ xs.foldl min a ∈ xs := by
  induction xs generalizing a with
  | nil => left; rfl
  | cons y ys ih =>
      rcases ih (min a y) with h | h
      · rcases min_cases a y with ⟨hm, _⟩ | ⟨hm, _⟩
        · left
          rw [List.foldl_cons, h, hm]
        · right
          rw [List.foldl_cons, h, hm]
          exact List.mem_cons_self y ys
      · right; exact List.mem_cons_of_mem y h

theorem minListD_le (l : List ℚ) : ∀ x ∈ l, minListD l ≤ x := by
  cases l with
  | nil => intro x hx; cases hx
  | cons a xs =>
      intro x hx
      rcases List.mem_cons.mp hx with h | h
      · subst h; exact foldl_min_le_init xs x
      · exact foldl_min_le_mem xs a x h

theorem minListD_mem (l : List ℚ) (h : l ≠ []) : minListD l ∈ l := by
  cases l with
  | nil => exact absurd rfl h
  | cons a xs =>
      rcases foldl_min_mem xs a with h2 | h2
      · simp [minListD, h2]
      · exact List.mem_cons_of_mem a (by simpa [minListD] using h2)

/-- The minimum of a mapped nonempty list is attained and is a lower
bound. -/
theorem minListD_map_spec {α : Type} (f : α → ℚ) (l : List α) (hne : l ≠ []) :
    (∃ x ∈ l, minListD (l.map f) = f x) ∧ ∀ x ∈ l, minListD (l.map f) ≤ f x := by
  constructor
  · rcases List.mem_map.mp (minListD_mem (l.map f) (by simpa using hne)) with ⟨x, hx, hfx⟩
    exact ⟨x, hx, hfx.symm⟩
  · intro x hx
    exact minListD_le _ _ (List.mem_map.mpr ⟨x, hx, rfl⟩)

/-- The minimum over the whole list is unaffected by dropping elements that
are strictly dominated by some kept element. -/
theorem minListD_map_filter {α : Type} (P : α → Bool) (f : α → ℚ) (l : List α)
    (hne : l ≠ [])
    (H : ∀ x ∈ l, P x = false → ∃ y ∈ l, P y = true ∧ f y < f x) :
    minListD (l.map f) = minListD ((l.filter P).map f) := by
  have hfne : l.filter P ≠ [] := by
    cases l with
    | nil => exact absurd rfl hne
    | cons a xs =>
        rcases hPa : P a with _ | _
        · rcases H a (List.mem_cons_self a xs) hPa with ⟨y, hy, hPy, _⟩
          intro hcontra
          have : y ∈ List.filter P (a :: xs) := List.mem_filter.mpr ⟨hy, by simp [hPy]⟩
          simp [hcontra] at this
        · intro hcontra
          have : a ∈ List.filter P (a :: xs) :=
            List.mem_filter.mpr ⟨List.mem_cons_self a xs, by simp [hPa]⟩
          simp [hcontra] at this
  apply le_antisymm
  · have hmem := minListD_mem ((l.filter P).map f) (by simpa using hfne)
    rcases List.mem_map.mp hmem with ⟨y, hy, hfy⟩
    have : y ∈ l := (List.mem_filter.mp hy).1
    calc minListD (l.map f) ≤ f y := minListD_le _ _ (List.mem_map.mpr ⟨y, this, rfl⟩)
      _ = minListD ((l.filter P).map f) := hfy
  · have hmem := minListD_mem (l.map f) (by simpa using hne)
    rcases List.mem_map.mp hmem with ⟨x, hx, hfx⟩
    rcases hPx : P x with _ | _
    · rcases H x hx hPx with ⟨y, hy, hPy, hlt⟩
      have h1 : minListD (l.map f) ≤ f y :=
        minListD_le _ _ (List.mem_map.mpr ⟨y, hy, rfl⟩)
      have h2 : f y < f x := hlt
      rw [hfx] at h2
      exact absurd (lt_of_le_of_lt h1 h2) (lt_irrefl _)
    · have : x ∈ l.filter P := List.mem_filter.mpr ⟨hx, by simp [hPx]⟩
      rw [← hfx]
      exact minListD_le _ _ (List.mem_map.mpr ⟨x, this, rfl⟩)

/-! ## Supporting lemmas: the font counter and `most_common` -/

/-- `counter[t]`, with `0` for an absent key. -/
def keyCount (l : List ((String × ℚ) × Nat)) (t : String × ℚ) : Nat :=
  ((l.find? (fun e => decide (e.1 = t))).map Prod.snd).getD 0

theorem counterAdd_keys (l : List ((String × ℚ) × Nat)) (t : String × ℚ) :
    (counterAdd l t).map Prod.fst =
      if t ∈ l.map Prod.fst then l.map Prod.fst else l.map Prod.fst ++ [t] := by
  induction l with
  | nil => simp [counterAdd]
  | cons e rest ih =>
      obtain ⟨u, c⟩ := e
      by_cases hu : u = t
      · subst hu
        simp [counterAdd]
      · simp only [counterAdd, if_neg hu, List.map_cons]
        rw [ih]
        by_cases ht : t ∈ rest.map Prod.fst
        · simp [ht, Ne.symm hu]
        · simp [ht, Ne.symm hu]

theorem counterAdd_char (l : List ((String × ℚ) × Nat)) (t : String × ℚ)
    (hnd : (l.map Prod.fst).Nodup) :
    ∀ e ∈ counterAdd l t,
      (e.1 = t ∧ e.2 = keyCount l t + 1) ∨ (e.1 ≠ t ∧ e ∈ l) := by
  induction l with
  | nil =>
      intro e he
      simp only [counterAdd, List.mem_singleton] at he
      subst he
      exact Or.inl ⟨rfl, by simp [keyCount]⟩
  | cons p rest ih =>
      obtain ⟨u, c⟩ := p
      intro e he
      by_cases hu : u = t
      · subst hu
        simp only [counterAdd, if_pos rfl] at he
        rcases List.mem_cons.mp he with he | he
        · subst he
          exact Or.inl ⟨rfl, by simp [keyCount, List.find?]⟩
        · have hkey : e.1 ∈ rest.map Prod.fst := List.mem_map.mpr ⟨e, he, rfl⟩
          have : e.1 ≠ u := by
            intro hcontra
            rw [hcontra] at hkey
            exact (List.nodup_cons.mp (by simpa using hnd)).1 hkey
          exact Or.inr ⟨this, List.mem_cons_of_mem _ he⟩
      · simp only [counterAdd, if_neg hu] at he
        rcases List.mem_cons.mp he with he | he
        · subst he
          exact Or.inr ⟨hu, List.mem_cons_self _ _⟩
        · have hnd' : (rest.map Prod.fst).Nodup := (List.nodup_cons.mp (by simpa using hnd)).2
          rcases ih hnd' e he with ⟨h1, h2⟩ | ⟨h1, h2⟩
          · refine Or.inl ⟨h1, ?_⟩
            rw [h2]
            simp [keyCount, List.find?, decide_eq_false hu]
          · exact Or.inr ⟨h1, List.mem_cons_of_mem _ h2⟩

/-- The running-counter invariant for the counting loop. -/
def counterInv (acc : List ((String × ℚ) × Nat)) (processed : List (String × ℚ)) : Prop :=
  (acc.map Prod.fst).Nodup ∧
  (∀ e ∈ acc, e.2 = processed.count e.1) ∧
  (∀ u : String × ℚ, u ∈ acc.map Prod.fst ↔ u ∈ processed)

theorem keyCount_of_inv (acc : List ((String × ℚ) × Nat)) (processed : List (String × ℚ))
    (hinv : counterInv acc processed) (t : String × ℚ) :
    keyCount acc t = processed.count t := by
  rcases hinv with ⟨_, hcount, hkeys⟩
  rcases hf : acc.find? (fun e => decide (e.1 = t)) with _ | e
  · have : t ∉ acc.map Prod.fst := by
      intro hmem
      rcases List.mem_map.mp hmem with ⟨e, he, hfst⟩
      have := List.find?_eq_none.mp hf e he
      simp [hfst] at this
    have ht : t ∉ processed := fun hc => this ((hkeys t).mpr hc)
    simp [keyCount, hf, List.count_eq_zero.mpr ht]
  · have hmem := List.mem_of_find?_eq_some hf
    have hpe := List.find?_some hf
    have hfst : e.1 = t := by simpa using hpe
    have := hcount e hmem
    simp [keyCount, hf, this, hfst]

theorem counterInv_add (acc : List ((String × ℚ) × Nat)) (processed : List (String × ℚ))
    (hinv : counterInv acc processed) (t : String × ℚ) :
    counterInv (counterAdd acc t) (processed ++ [t]) := by
  obtain ⟨hnd, hcount, hkeys⟩ := hinv
  refine ⟨?_, ?_, ?_⟩
  · rw [counterAdd_keys]
    by_cases ht : t ∈ acc.map Prod.fst
    · simpa [ht] using hnd
    · simpa [ht] using List.Nodup.append hnd (List.nodup_singleton t)
        (by simpa [List.disjoint_singleton] using ht)
  · intro e he
    rcases counterAdd_char acc t hnd e he with ⟨h1, h2⟩ | ⟨h1, h2⟩
    · rw [h2, keyCount_of_inv acc processed ⟨hnd, hcount, hkeys⟩ t, h1]
      simp [List.count_append]
    · rw [hcount e h2]
      simp [List.count_append, List.count_singleton, h1]
  · intro u
    rw [counterAdd_keys]
    by_cases ht : t ∈ acc.map Prod.fst
    · by_cases hu : u = t
      · subst hu
        simp [ht, List.mem_append, (hkeys u).mp ht]
      · simp [ht, List.mem_append, hkeys u, hu]
    · simp [ht, List.mem_append, hkeys u]

theorem counterOf_inv (ts : List (String × ℚ)) :
    ∀ (acc : List ((String × ℚ) × Nat)) (processed : List (String × ℚ)),
      counterInv acc processed → counterInv (ts.foldl counterAdd acc) (processed ++ ts) := by
  induction ts with
  | nil => intro acc processed h; simpa using h
  | cons t rest ih =>
      intro acc processed h
      have := ih (counterAdd acc t) (processed ++ [t]) (counterInv_add acc processed h t)
      simpa using this

theorem counterOf_spec (ts : List (String × ℚ)) :
    ∀ e ∈ counterOf ts, e.2 = ts.count e.1 ∧ e.1 ∈ ts := by
  have hinv : counterInv (counterOf ts) ([] ++ ts) :=
    counterOf_inv ts [] [] ⟨List.nodup_nil, by simp, by simp⟩
  simp only [List.nil_append] at hinv
  obtain ⟨_, hcount, hkeys⟩ := hinv
  intro e he
  exact ⟨hcount e he, (hkeys e.1).mp (List.mem_map.mpr ⟨e, he, rfl⟩)⟩

theorem mem_insertByCount (x e : (String × ℚ) × Nat)
    (l : List ((String × ℚ) × Nat)) :
    e ∈ insertByCount x l ↔ e = x ∨ e ∈ l := by
  induction l with
  | nil => simp [insertByCount]
  | cons y ys ih =>
      by_cases h : y.2 < x.2
      · simp only [insertByCount, if_pos h, List.mem_cons]
      · simp only [insertByCount, if_neg h, List.mem_cons, ih]
        tauto

theorem pairwise_insertByCount (x : (String × ℚ) × Nat)
    (l : List ((String × ℚ) × Nat))
    (h : l.Pairwise (fun a b => b.2 ≤ a.2)) :
    (insertByCount x l).Pairwise (fun a b => b.2 ≤ a.2) := by
  induction l with
  | nil => simp [insertByCount]
  | cons y ys ih =>
      obtain ⟨h1, h2⟩ := List.pairwise_cons.mp h
      by_cases hlt : y.2 < x.2
      · have hrw : insertByCount x (y :: ys) = x :: y :: ys := by
          simp [insertByCount, hlt]
        rw [hrw]
        refine List.pairwise_cons.mpr ⟨?_, h⟩
        intro z hz
        rcases List.mem_cons.mp hz with hz | hz
        · subst hz; exact le_of_lt hlt
        · exact le_trans (h1 z hz) (le_of_lt hlt)
      · have hrw : insertByCount x (y :: ys) = y :: insertByCount x ys := by
          simp [insertByCount, hlt]
        rw [hrw]
        refine List.pairwise_cons.mpr ⟨?_, ih h2⟩
        intro z hz
        rcases (mem_insertByCount x z ys).mp hz with hz | hz
        · subst hz; exact le_of_not_lt hlt
        · exact h1 z hz

theorem mem_mostCommon (l : List ((String × ℚ) × Nat)) (e : (String × ℚ) × Nat) :
    e ∈ mostCommon l ↔ e ∈ l := by
  have main : ∀ (l acc : List ((String × ℚ) × Nat)) (e : (String × ℚ) × Nat),
      e ∈ l.foldl (fun acc x => insertByCount x acc) acc ↔ e ∈ acc ∨ e ∈ l := by
    intro l
    induction l with
    | nil => intro acc e; simp
    | cons x xs ih =>
        intro acc e
        simp only [List.foldl_cons, ih, mem_insertByCount, List.mem_cons]
        tauto
  simpa using main l [] e

theorem pairwise_mostCommon (l : List ((String × ℚ) × Nat)) :
    (mostCommon l).Pairwise (fun a b => b.2 ≤ a.2) := by
  have main : ∀ (l acc : List ((String × ℚ) × Nat)),
      acc.Pairwise (fun a b => b.2 ≤ a.2) →
      (l.foldl (fun acc x => insertByCount x acc) acc).Pairwise (fun a b => b.2 ≤ a.2) := by
    intro l
    induction l with
    | nil => intro acc h; simpa using h
    | cons x xs ih =>
        intro acc h
        exact ih (insertByCount x acc) (pairwise_insertByCount x acc h)
  exact main l [] List.Pairwise.nil

/-! ## Supporting lemmas: the report dict and the evaluation loop -/

theorem dictInsert_append {α : Type} (d : List (String × α)) (k : String) (v : α)
    (h : ∀ kv ∈ d, kv.1 ≠ k) : dictInsert d k v = d ++ [(k, v)] := by
  induction d with
  | nil => rfl
  | cons kv rest ih =>
      have hk : kv.1 ≠ k := h kv (List.mem_cons_self kv rest)
      cases kv with
      | mk k2 v2 =>
          simp only [dictInsert, if_neg hk, List.cons_append, List.cons.injEq, true_and]
          exact ih (fun kv2 h2 => h kv2 (List.mem_cons_of_mem _ h2))

/-- A verdict carries exactly one of `value` / `reason`. -/
def exactlyOne (v : Verdict) : Prop :=
  (v.value.isSome = true ∧ v.reason = none) ∨ (v.value = none ∧ v.reason.isSome = true)

/-- The status vocabulary: `ok`, `skipped`, or the rule's own severity. -/
def statusAllowed (c : Criterion) (v : Verdict) : Prop :=
  v.status = "ok" ∨ v.status = "skipped" ∨ v.status = c.severity

theorem evalRule_ok_wf (env : Env) (pdfPath : String) (c : Criterion) (v : Verdict)
    (h : evalRule env pdfPath c = .ok v) : exactlyOne v ∧ statusAllowed c v := by
  have skippedWf : ∀ msg : String, exactlyOne ⟨"skipped", none, some msg⟩ ∧
      statusAllowed c ⟨"skipped", none, some msg⟩ :=
    fun msg => ⟨Or.inr ⟨rfl, rfl⟩, Or.inr (Or.inl rfl)⟩
  have okOrSevWf : ∀ (b : Bool) (d : PyObj),
      exactlyOne ⟨if b then "ok" else c.severity, some d, none⟩ ∧
      statusAllowed c ⟨if b then "ok" else c.severity, some d, none⟩ := by
    intro b d
    refine ⟨Or.inl ⟨rfl, rfl⟩, ?_⟩
    cases b
    · exact Or.inr (Or.inr rfl)
    · exact Or.inl rfl
  unfold evalRule at h
  split at h
  · cases h; exact skippedWf _
  · rcases hexec : executeExtractor env pdfPath c.extractor with e | eo
    · rw [hexec] at h; cases h
    · rw [hexec] at h
      cases eo with
      | failed msg => cases h; exact skippedWf _
      | value val =>
          cases c with
          | quantitative base t tol mn mx units => cases h; exact okOrSevWf _ _
          | existential base must => cases h; exact okOrSevWf _ _
          | categorical base av pt => cases h; exact skippedWf _
          | structural base es => cases h; exact skippedWf _
          | qualitative base p m => cases h; exact skippedWf _

/-- Per-entry well-formedness of a report row against its rule. -/
def rowWf (r : Criterion) (kv : String × Verdict) : Prop :=
  kv.1 = r.cid ∧ exactlyOne kv.2 ∧ statusAllowed r kv.2

theorem runAux_spec (env : Env) (pdfPath : String) :
    ∀ (rules : List Criterion) (acc out : Report),
      (∀ r ∈ rules, ∀ kv ∈ acc, kv.1 ≠ r.cid) →
      (rules.map Criterion.cid).Nodup →
      runAux env pdfPath rules acc = .ok out →
      ∃ l, out = acc ++ l ∧ List.Forall₂ rowWf rules l := by
  intro rules
  induction rules with
  | nil =>
      intro acc out _ _ h
      cases h
      exact ⟨[], by simp, List.Forall₂.nil⟩
  | cons r rest ih =>
      intro acc out hfresh hnodup h
      unfold runAux at h
      split at h
      · cases h
      · rename_i v he
        have hins : dictInsert acc r.cid v = acc ++ [(r.cid, v)] :=
          dictInsert_append acc r.cid v
            (fun kv hk => hfresh r (List.mem_cons_self r rest) kv hk)
        rw [hins] at h
        have hnodup' : (rest.map Criterion.cid).Nodup := (List.nodup_cons.mp hnodup).2
        have hfresh' : ∀ r2 ∈ rest, ∀ kv ∈ acc ++ [(r.cid, v)], kv.1 ≠ r2.cid := by
          intro r2 hr2 kv hkv
          rcases List.mem_append.mp hkv with hkv | hkv
          · exact hfresh r2 (List.mem_cons_of_mem r hr2) kv hkv
          · simp only [List.mem_singleton] at hkv
            subst hkv
            intro hcontra
            have hc2 : r.cid = r2.cid := hcontra
            exact (List.nodup_cons.mp hnodup).1 (by
              rw [hc2]; exact List.mem_map.mpr ⟨r2, hr2, rfl⟩)
        rcases ih (acc ++ [(r.cid, v)]) out hfresh' hnodup' h with ⟨l, hout, hfa⟩
        refine ⟨(r.cid, v) :: l, by simpa using hout, ?_⟩
        exact List.Forall₂.cons ⟨rfl, evalRule_ok_wf env pdfPath r v he⟩ hfa

/-! ## Supporting lemmas: total execution of the resolver -/

/-- Whether an import outcome is a non-`ModuleNotFoundError` exception. -/
def ImportOutcome.isRaises : ImportOutcome → Bool
  | .raises _ => true
  | _ => false

theorem tryImportAux_ok (env : Env) (parts : List String)
    (h : ∀ i : ℕ, 1 ≤ i → i ≤ parts.length →
      (pyImport env (joinSep '.' (parts.take i))).isRaises = false) :
    ∀ j : ℕ, j ≤ parts.length → ∃ o, tryImportAux env parts j = .ok o := by
  intro j
  induction j with
  | zero => intro _; exact ⟨none, rfl⟩
  | succ i ih =>
      intro hle
      rcases hp : pyImport env (joinSep '.' (parts.take (i + 1))) with m | _ | msg
      · exact ⟨some (m, parts.take (i + 1), parts.drop (i + 1)), by simp [tryImportAux, hp]⟩
      · rcases ih (le_trans (Nat.le_succ i) hle) with ⟨o, ho⟩
        exact ⟨o, by simp [tryImportAux, hp, ho]⟩
      · have hbad := h (i + 1) (Nat.succ_le_succ (Nat.zero_le i)) hle
        rw [hp] at hbad
        simp [ImportOutcome.isRaises] at hbad

theorem executeExtractor_total (env : Env) (pdfPath path : String)
    (h : ∀ i : ℕ, 1 ≤ i → i ≤ (pySplit '.' path).length →
      (pyImport env (joinSep '.' ((pySplit '.' path).take i))).isRaises = false) :
    ∃ out, executeExtractor env pdfPath path = .ok out := by
  unfold executeExtractor resolveExtractor
  by_cases hp : pySplit '.' path = []
  · exact ⟨.failed "empty extractor path", by simp [hp]⟩
  · obtain ⟨o, ho⟩ :=
      tryImportAux_ok env (pySplit '.' path) h (pySplit '.' path).length le_rfl
    cases o with
    | none => exact ⟨.failed ("module not found in path '" ++ path ++ "'"), by simp [hp, ho]⟩
    | some pr =>
        obtain ⟨m, consumed, chain⟩ := pr
        cases hw : walkAttrs consumed m chain with
        | failure msg => exact ⟨.failed msg, by simp [hp, ho, hw]⟩
        | success obj tail =>
            rcases hr : callOrPass pdfPath obj with e | r
            · exact ⟨.failed ("runtime error: " ++ e), by simp [hp, ho, hw, hr]⟩
            · exact ⟨drillDown r tail, by simp [hp, ho, hw, hr]⟩

/-! ## Definitions written from the spec's words (for refinement claims) -/

/-- The spec's comparison precedence for Quantitative rules (§4.2), written
from the spec's words, for comparison with `evaluateQuantitative`. -/
def quantSpecPass (target tolerance min_value max_value : Option ℚ) (v : ℚ) : Bool :=
  match target, tolerance with
  | some t, some tol => decide (|v - t| ≤ tol)
  | _, _ =>
      match min_value, max_value with
      | some mn, some mx => decide (mn ≤ v ∧ v ≤ mx)
      | some mn, none => decide (mn ≤ v)
      | none, some mx => decide (v ≤ mx)
      | none, none => true

/-- The claimed whole-document column aggregation (spec's words): the
single-column flag is the logical AND of the per-page single-column
judgments. -/
def specSingleColumnAnd (doc : List Page) : Bool :=
  (doc.map (fun p => !(pageMetricsSingle p).two_column)).all id

/-- The claimed font-name stripping (spec's words): remove only the subset
prefix before the *first* `+`. -/
def stripSubsetFirstSpec (s : String) : String :=
  match pySplit '+' s with
  | [] => s
  | [x] => x
  | _ :: rest => joinSep '+' rest

/-! ## Concrete fixtures for witnesses and counterexamples -/

/-- A 720×1000 pt page with one span: looks single-column (one centre
bucket). -/
def pageSingleCol : Page := ⟨720, 1000, [[[⟨100, 100, 200, 110⟩]]]⟩

/-- A 720×1000 pt page with seven spans spread across the width: more than
six centre buckets, so it looks two-column to `_page_metrics_single`. -/
def pageMultiCol : Page :=
  ⟨720, 1000, [[[⟨72, 100, 72, 110⟩, ⟨144, 100, 144, 110⟩, ⟨216, 100, 216, 110⟩,
    ⟨288, 100, 288, 110⟩, ⟨360, 100, 360, 110⟩, ⟨432, 100, 432, 110⟩,
    ⟨504, 100, 504, 110⟩]]]⟩

/-- A page with no text spans. -/
def pageBlank : Page := ⟨720, 1000, []⟩

/-- A page whose left margin computes to exactly 5 cm (in points). -/
def pageLeft5 : Page := ⟨720, 1000, [[[⟨18000/127, 100, 300, 110⟩]]]⟩

/-- A page whose left margin computes to exactly 3 cm (in points). -/
def pageLeft3 : Page := ⟨720, 1000, [[[⟨10800/127, 100, 300, 110⟩]]]⟩

/-- Pages whose per-page single-column judgments are `[true, true, false]`. -/
def docMixedColumns : List Page := [pageSingleCol, pageSingleCol, pageMultiCol]

/-- An import environment with one module `m` whose function `f` returns the
non-numeric string `"abc"`. -/
def envStrAbc : Env :=
  [("m", .found (.module [("f", .func (fun _ => .ok (.str "abc")))]))]

/-- An import environment whose function `f` returns the number `12`. -/
def envNum12 : Env :=
  [("m", .found (.module [("f", .func (fun _ => .ok (.num 12)))]))]

/-- An import environment where importing module `m` itself raises. -/
def envRaisingModule : Env := [("m", .raises "boom")]

/-- The S02 rule (`max_value=250`) rewired to the stub extractor `m.f`. -/
def ruleAbstractWordcount : Criterion :=
  .quantitative ⟨"S02", "Abstract ≤250 words", "error", "m.f"⟩ none none none (some 250) "words"

/-- Two criteria sharing the id `X01`. -/
def dupCritA : Criterion := .existential ⟨"X01", "first copy", "warning", ""⟩ true

/-- Second criterion with the duplicate id `X01`. -/
def dupCritB : Criterion := .existential ⟨"X01", "second copy", "error", ""⟩ true

end PdfCompliance

namespace PdfCompliance

/-! ## Concrete evaluations of the geometry fixtures -/

theorem pageMetricsSingle_blank :
    pageMetricsSingle pageBlank = ⟨720, 1000, 720, 720, 1000, 1000, false, 0⟩ := rfl

theorem pageMetricsSingle_singleCol :
    pageMetricsSingle pageSingleCol = ⟨720, 1000, 100, 520, 100, 890, false, 900⟩ := by
  simp [pageMetricsSingle, pageSingleCol, Page.spans, percentile, sortAsc, insertAsc, minListD]
  norm_num [List.dedup]

theorem pageMetricsSingle_multiCol_two_column :
    (pageMetricsSingle pageMultiCol).two_column = true := by
  simp [pageMetricsSingle, pageMultiCol, Page.spans]
  norm_num [percentile, sortAsc, insertAsc, minListD, List.dedup, pyRound1, roundHalfEven]

theorem pageMetricsSingle_left5 :
    pageMetricsSingle pageLeft5 = ⟨720, 1000, 18000/127, 420, 100, 890, false, 900⟩ := by
  simp [pageMetricsSingle, pageLeft5, Page.spans, percentile, sortAsc, insertAsc, minListD]
  norm_num [List.dedup]

theorem pageMetricsSingle_left3 :
    pageMetricsSingle pageLeft3 = ⟨720, 1000, 10800/127, 420, 100, 890, false, 900⟩ := by
  simp [pageMetricsSingle, pageLeft3, Page.spans, percentile, sortAsc, insertAsc, minListD]
  norm_num [List.dedup]

theorem pageMetrics_blank :
    page_metrics [pageBlank] =
      some ⟨127/5, 882/25, 127/5, 127/5, 882/25, 882/25, false, 0,
        [⟨720, 1000, 720, 720, 1000, 1000, false, 0⟩]⟩ := by
  simp [page_metrics, pageMetricsSingle_blank]
  norm_num [statMedian, sortAsc, insertAsc, minListD, pyRound2, roundHalfEven, PT_TO_CM]

theorem pageMetrics_blankSingle :
    page_metrics [pageBlank, pageSingleCol] =
      some ⟨127/5, 882/25, 353/100, 917/50, 353/100, 157/5, false, 397/25,
        [⟨720, 1000, 720, 720, 1000, 1000, false, 0⟩,
         ⟨720, 1000, 100, 520, 100, 890, false, 900⟩]⟩ := by
  simp [page_metrics, pageMetricsSingle_blank, pageMetricsSingle_singleCol]
  norm_num [statMedian, sortAsc, insertAsc, minListD, pyRound2, roundHalfEven, PT_TO_CM]

theorem pageMetrics_left53_left_margin :
    (page_metrics [pageLeft5, pageLeft3]).map GeoOut.left_margin_cm = some 3 := by
  simp [page_metrics, pageMetricsSingle_left5, pageMetricsSingle_left3]
  norm_num [minListD, pyRound2, roundHalfEven, PT_TO_CM]

/-- `pyRound1 10 = 10`, needed to evaluate the font fixture. -/
theorem pyRound1_ten : pyRound1 (10 : ℚ) = 10 := by
  norm_num [pyRound1, roundHalfEven]

/-! ## Claim theorems -/

/-- C10: `font_inventory` with its default `first_n_pages = 5` depends only
on the first five pages of the document: two documents whose first five
pages are identical yield identical frequency rankings, whatever the later
pages contain. -/
theorem C10_font_inventory_prefix_independent (d1 d2 : List (List FChar))
    (h : d1.take 5 = d2.take 5) : font_inventory d1 5 = font_inventory d2 5 := by
  unfold font_inventory
  rw [h]

/-- Witness for C10 at two concrete documents that differ only on page 6. -/
theorem C10_witness :
    font_inventory [[FChar.mk "ArialMT" 10], [], [], [], [], [FChar.mk "Xfont" 9]] 5 =
      font_inventory [[FChar.mk "ArialMT" 10], [], [], [], [], [FChar.mk "Yfont" 12]] 5 :=
  C10_font_inventory_prefix_independent _ _ (by decide)

/-- C8 counterexample: on the raw embedded name `"AB+CD+EF"` (two `+`
signs) `font_inventory` reports `"EF"`, the segment after the *last* `+`,
whereas the claim mandates `"CD+EF"`, everything after the *first* `+`. -/
theorem C8_counterexample :
    font_inventory [[FChar.mk "AB+CD+EF" 10]] 5 = [(("EF", 10), 1)] ∧
    stripSubset "AB+CD+EF" = "EF" ∧
    stripSubsetFirstSpec "AB+CD+EF" = "CD+EF" ∧
    ("EF" : String) ≠ "CD+EF" := by
  refine ⟨?_, by decide, by decide, by decide⟩
  have hs : stripSubset "AB+CD+EF" = "EF" := by decide
  simp [font_inventory, hs, pyRound1_ten, counterOf, counterAdd, mostCommon, insertByCount]

/-- C8 (amended): every reported font name is the raw embedded name
stripped of everything up to and including the *last* `+`, the reported
count is the number of occurrences of the (stripped name, rounded size)
tag among the characters of the first `n` pages, and the inventory is
frequency-ranked (counts are non-increasing along the list). -/
theorem C8_amended_inventory (doc : List (List FChar)) (n : Nat) :
    (font_inventory doc n).Pairwise (fun a b => b.2 ≤ a.2) ∧
    ∀ e ∈ font_inventory doc n,
      (∃ ch ∈ (doc.take n).flatten,
          e.1 = (stripSubset ch.fontname, pyRound1 ch.size)) ∧
      e.2 = (((doc.take n).flatten).map
          (fun ch => (stripSubset ch.fontname, pyRound1 ch.size))).count e.1 := by
  constructor
  · exact pairwise_mostCommon _
  · intro e he
    have he2 : e ∈ counterOf (((doc.take n).flatten).map
        (fun ch => (stripSubset ch.fontname, pyRound1 ch.size))) :=
      (mem_mostCommon _ _).mp he
    obtain ⟨hcnt, hmemtag⟩ := counterOf_spec _ e he2
    refine ⟨?_, hcnt⟩
    rcases List.mem_map.mp hmemtag with ⟨ch, hch, htag⟩
    exact ⟨ch, hch, htag.symm⟩

/-- Witness for C8 (amended) at the two-plus-sign document. -/
theorem C8_witness :
    (∃ ch ∈ ([[FChar.mk "AB+CD+EF" 10]].take 5).flatten,
        ((("EF" : String), (10 : ℚ))) = (stripSubset ch.fontname, pyRound1 ch.size)) ∧
    (1 : ℕ) = ((([[FChar.mk "AB+CD+EF" 10]].take 5).flatten).map
        (fun ch => (stripSubset ch.fontname, pyRound1 ch.size))).count ("EF", 10) :=
  (C8_amended_inventory [[FChar.mk "AB+CD+EF" 10]] 5).2 (("EF", 10), 1) (by
    have hs : stripSubset "AB+CD+EF" = "EF" := by decide
    simp [font_inventory, hs, pyRound1_ten, counterOf, counterAdd, mostCommon, insertByCount])

/-- C3 counterexample: for a document whose per-page single-column
judgments are `[true, true, false]`, the claim's AND aggregation yields
`false`, but the flag the geometry provider returns is `two_column =
false`, whose single-column reading is `true` — the aggregation is an AND
over the *two-column* judgments, not over the single-column ones. -/
theorem C3_counterexample :
    docMixedColumns.map (fun p => !(pageMetricsSingle p).two_column) = [true, true, false] ∧
    specSingleColumnAnd docMixedColumns = false ∧
    (page_metrics docMixedColumns).map (fun out => !out.two_column) = some true := by
  refine ⟨?_, ?_, ?_⟩
  · simp [docMixedColumns, pageMetricsSingle_singleCol, pageMetricsSingle_multiCol_two_column]
  · simp [specSingleColumnAnd, docMixedColumns, pageMetricsSingle_singleCol,
      pageMetricsSingle_multiCol_two_column]
  · simp [page_metrics, docMixedColumns, pageMetricsSingle_singleCol,
      pageMetricsSingle_multiCol_two_column]

/-- C3 (amended): the document-level column flag returned by
`page_metrics` is `two_column`, the logical AND of the per-page
*two-column* judgments: it is `true` only when every page looks
two-column, so the derived single-column reading is an OR (not an AND) of
the per-page single-column judgments. -/
theorem C3_amended_two_column_and (doc : List Page) (out : GeoOut)
    (h : page_metrics doc = some out) :
    out.two_column = (doc.map (fun p => (pageMetricsSingle p).two_column)).all id := by
  cases doc with
  | nil => cases h
  | cons p ps =>
      simp only [page_metrics] at h
      cases h
      show ((List.map pageMetricsSingle (p :: ps)).map PageRec.two_column).all id =
        (List.map (fun p => (pageMetricsSingle p).two_column) (p :: ps)).all id
      rw [List.map_map]
      rfl

/-- Witness for C3 (amended) at a concrete one-page blank document. -/
theorem C3_witness :
    GeoOut.two_column
        ⟨127/5, 882/25, 127/5, 127/5, 882/25, 882/25, false, 0,
          [⟨720, 1000, 720, 720, 1000, 1000, false, 0⟩]⟩ =
      ([pageBlank].map (fun p => (pageMetricsSingle p).two_column)).all id :=
  C3_amended_two_column_and [pageBlank] _ pageMetrics_blank

end PdfCompliance

namespace PdfCompliance

/-- C7: each document-level margin produced by `page_metrics` is the
rounded cm conversion of the minimum per-page margin — attained on some
page and a lower bound for every page, hence never an average — and the
concrete two-page document with left margins 5.0 cm and 3.0 cm aggregates
to 3.0 cm, not to the 4.0 cm average. -/
theorem C7_margin_minimum (doc : List Page) (out : GeoOut)
    (h : page_metrics doc = some out) :
    (out.left_margin_cm = pyRound2
        (minListD (doc.map (fun p => (pageMetricsSingle p).left_margin)) * PT_TO_CM) ∧
      (∃ p ∈ doc, minListD (doc.map (fun p => (pageMetricsSingle p).left_margin)) =
          (pageMetricsSingle p).left_margin) ∧
      ∀ p ∈ doc, minListD (doc.map (fun p => (pageMetricsSingle p).left_margin)) ≤
          (pageMetricsSingle p).left_margin) ∧
    (out.right_margin_cm = pyRound2
        (minListD (doc.map (fun p => (pageMetricsSingle p).right_margin)) * PT_TO_CM) ∧
      (∃ p ∈ doc, minListD (doc.map (fun p => (pageMetricsSingle p).right_margin)) =
          (pageMetricsSingle p).right_margin) ∧
      ∀ p ∈ doc, minListD (doc.map (fun p => (pageMetricsSingle p).right_margin)) ≤
          (pageMetricsSingle p).right_margin) ∧
    (out.top_margin_cm = pyRound2
        (minListD (doc.map (fun p => (pageMetricsSingle p).top_margin)) * PT_TO_CM) ∧
      (∃ p ∈ doc, minListD (doc.map (fun p => (pageMetricsSingle p).top_margin)) =
          (pageMetricsSingle p).top_margin) ∧
      ∀ p ∈ doc, minListD (doc.map (fun p => (pageMetricsSingle p).top_margin)) ≤
          (pageMetricsSingle p).top_margin) ∧
    (out.bottom_margin_cm = pyRound2
        (minListD (doc.map (fun p => (pageMetricsSingle p).bottom_margin)) * PT_TO_CM) ∧
      (∃ p ∈ doc, minListD (doc.map (fun p => (pageMetricsSingle p).bottom_margin)) =
          (pageMetricsSingle p).bottom_margin) ∧
      ∀ p ∈ doc, minListD (doc.map (fun p => (pageMetricsSingle p).bottom_margin)) ≤
          (pageMetricsSingle p).bottom_margin) ∧
    ((page_metrics [pageLeft5, pageLeft3]).map GeoOut.left_margin_cm = some 3 ∧
      (3 : ℚ) ≠ (5 + 3) / 2) := by
  cases doc with
  | nil => cases h
  | cons p ps =>
      simp only [page_metrics] at h
      cases h
      have hne : (p :: ps) ≠ ([] : List Page) := by simp
      refine ⟨⟨?_, (minListD_map_spec _ _ hne).1, (minListD_map_spec _ _ hne).2⟩,
        ⟨?_, (minListD_map_spec _ _ hne).1, (minListD_map_spec _ _ hne).2⟩,
        ⟨?_, (minListD_map_spec _ _ hne).1, (minListD_map_spec _ _ hne).2⟩,
        ⟨?_, (minListD_map_spec _ _ hne).1, (minListD_map_spec _ _ hne).2⟩,
        pageMetrics_left53_left_margin, by norm_num⟩
      · exact congrArg (fun t => pyRound2 (minListD t * PT_TO_CM)) (by rw [List.map_map]; rfl)
      · exact congrArg (fun t => pyRound2 (minListD t * PT_TO_CM)) (by rw [List.map_map]; rfl)
      · exact congrArg (fun t => pyRound2 (minListD t * PT_TO_CM)) (by rw [List.map_map]; rfl)
      · exact congrArg (fun t => pyRound2 (minListD t * PT_TO_CM)) (by rw [List.map_map]; rfl)

/-- Witness for C7 at the one-page blank document. -/
theorem C7_witness :
    GeoOut.left_margin_cm
        ⟨127/5, 882/25, 127/5, 127/5, 882/25, 882/25, false, 0,
          [⟨720, 1000, 720, 720, 1000, 1000, false, 0⟩]⟩ =
      pyRound2 (minListD ([pageBlank].map
          (fun p => (pageMetricsSingle p).left_margin)) * PT_TO_CM) :=
  (C7_margin_minimum [pageBlank] _ pageMetrics_blank).1.1

end PdfCompliance

namespace PdfCompliance

/-- C9: a page with no text spans falls back to margins equal to the full
page width/height, and whenever every blank page is strictly dominated (in
each margin) by some non-blank page, the document-level minimum margins of
`page_metrics` equal those computed from the non-blank pages alone — a
blank page never determines them. -/
theorem C9_blank_page_fallback :
    (∀ p : Page, p.spans = [] →
      pageMetricsSingle p = ⟨p.width, p.height, p.width, p.width, p.height, p.height, false, 0⟩) ∧
    (∀ (doc : List Page) (out : GeoOut), page_metrics doc = some out →
      (∀ b ∈ doc, b.spans = [] → ∃ q ∈ doc, q.spans ≠ [] ∧
          (pageMetricsSingle q).left_margin < b.width ∧
          (pageMetricsSingle q).right_margin < b.width ∧
          (pageMetricsSingle q).top_margin < b.height ∧
          (pageMetricsSingle q).bottom_margin < b.height) →
      (out.left_margin_cm = pyRound2 (minListD
          ((doc.filter (fun p => !decide (p.spans = []))).map
            (fun p => (pageMetricsSingle p).left_margin)) * PT_TO_CM) ∧
       out.right_margin_cm = pyRound2 (minListD
          ((doc.filter (fun p => !decide (p.spans = []))).map
            (fun p => (pageMetricsSingle p).right_margin)) * PT_TO_CM) ∧
       out.top_margin_cm = pyRound2 (minListD
          ((doc.filter (fun p => !decide (p.spans = []))).map
            (fun p => (pageMetricsSingle p).top_margin)) * PT_TO_CM) ∧
       out.bottom_margin_cm = pyRound2 (minListD
          ((doc.filter (fun p => !decide (p.spans = []))).map
            (fun p => (pageMetricsSingle p).bottom_margin)) * PT_TO_CM))) := by
  have hfall : ∀ p : Page, p.spans = [] →
      pageMetricsSingle p = ⟨p.width, p.height, p.width, p.width, p.height, p.height, false, 0⟩ := by
    intro p hp
    simp [pageMetricsSingle, hp]
  refine ⟨hfall, ?_⟩
  intro doc out h H
  cases doc with
  | nil => cases h
  | cons p ps =>
      simp only [page_metrics] at h
      cases h
      have main : ∀ (sel : PageRec → ℚ) (bnd : Page → ℚ),
          (∀ x : Page, x.spans = [] → sel (pageMetricsSingle x) = bnd x) →
          (∀ b ∈ (p :: ps), b.spans = [] → ∃ q ∈ (p :: ps), q.spans ≠ [] ∧
              sel (pageMetricsSingle q) < bnd b) →
          minListD ((p :: ps).map (fun x => sel (pageMetricsSingle x))) =
            minListD (((p :: ps).filter (fun x => !decide (x.spans = []))).map
              (fun x => sel (pageMetricsSingle x))) := by
        intro sel bnd hsel hH
        apply minListD_map_filter _ _ _ (by simp)
        intro x hx hPx
        have hxb : x.spans = [] := by simpa using hPx
        rcases hH x hx hxb with ⟨q, hq, hqnb, hlt⟩
        refine ⟨q, hq, by simpa using hqnb, ?_⟩
        rw [hsel x hxb]
        exact hlt
      have hselL : ∀ x : Page, x.spans = [] →
          PageRec.left_margin (pageMetricsSingle x) = x.width := by
        intro x hx; rw [hfall x hx]
      have hselR : ∀ x : Page, x.spans = [] →
          PageRec.right_margin (pageMetricsSingle x) = x.width := by
        intro x hx; rw [hfall x hx]
      have hselT : ∀ x : Page, x.spans = [] →
          PageRec.top_margin (pageMetricsSingle x) = x.height := by
        intro x hx; rw [hfall x hx]
      have hselB : ∀ x : Page, x.spans = [] →
          PageRec.bottom_margin (pageMetricsSingle x) = x.height := by
        intro x hx; rw [hfall x hx]
      refine ⟨?_, ?_, ?_, ?_⟩
      · have hmin := main PageRec.left_margin Page.width hselL
          (fun b hb hbs => by
            rcases H b hb hbs with ⟨q, hq, hqnb, h1, _, _, _⟩
            exact ⟨q, hq, hqnb, h1⟩)
        exact (congrArg (fun t => pyRound2 (minListD t * PT_TO_CM))
          (by rw [List.map_map]; rfl)).trans
          (congrArg (fun m => pyRound2 (m * PT_TO_CM)) hmin)
      · have hmin := main PageRec.right_margin Page.width hselR
          (fun b hb hbs => by
            rcases H b hb hbs with ⟨q, hq, hqnb, _, h2, _, _⟩
            exact ⟨q, hq, hqnb, h2⟩)
        exact (congrArg (fun t => pyRound2 (minListD t * PT_TO_CM))
          (by rw [List.map_map]; rfl)).trans
          (congrArg (fun m => pyRound2 (m * PT_TO_CM)) hmin)
      · have hmin := main PageRec.top_margin Page.height hselT
          (fun b hb hbs => by
            rcases H b hb hbs with ⟨q, hq, hqnb, _, _, h3, _⟩
            exact ⟨q, hq, hqnb, h3⟩)
        exact (congrArg (fun t => pyRound2 (minListD t * PT_TO_CM))
          (by rw [List.map_map]; rfl)).trans
          (congrArg (fun m => pyRound2 (m * PT_TO_CM)) hmin)
      · have hmin := main PageRec.bottom_margin Page.height hselB
          (fun b hb hbs => by
            rcases H b hb hbs with ⟨q, hq, hqnb, _, _, _, h4⟩
            exact ⟨q, hq, hqnb, h4⟩)
        exact (congrArg (fun t => pyRound2 (minListD t * PT_TO_CM))
          (by rw [List.map_map]; rfl)).trans
          (congrArg (fun m => pyRound2 (m * PT_TO_CM)) hmin)

/-- Witness for C9 at the document [blank page, single-column page]. -/
theorem C9_witness :
    GeoOut.left_margin_cm
        ⟨127/5, 882/25, 353/100, 917/50, 353/100, 157/5, false, 397/25,
          [⟨720, 1000, 720, 720, 1000, 1000, false, 0⟩,
           ⟨720, 1000, 100, 520, 100, 890, false, 900⟩]⟩ =
      pyRound2 (minListD
          (([pageBlank, pageSingleCol].filter (fun p => !decide (p.spans = []))).map
            (fun p => (pageMetricsSingle p).left_margin)) * PT_TO_CM) :=
  ((C9_blank_page_fallback).2 [pageBlank, pageSingleCol] _ pageMetrics_blankSingle
    (by
      intro b hb hbs
      rcases List.mem_cons.mp hb with hb1 | hb1
      · subst hb1
        refine ⟨pageSingleCol, by simp, by simp [pageSingleCol, Page.spans], ?_⟩
        rw [pageMetricsSingle_singleCol]
        refine ⟨by norm_num [pageBlank], by norm_num [pageBlank],
          by norm_num [pageBlank], by norm_num [pageBlank]⟩
      · simp only [List.mem_singleton] at hb1
        subst hb1
        simp [pageSingleCol, Page.spans] at hbs)).1

end PdfCompliance

namespace PdfCompliance

/-- C5: for every value that coerces to a real number,
`_evaluate_quantitative` decides pass/fail exactly by the spec's comparison
precedence (`quantSpecPass`); with `target=10, tolerance=1` the pass region
is exactly `[9, 11]` inclusive; and through `run`'s rule step a resolved
numeric value yields status `ok` on `[9, 11]` and the rule's severity
outside it. -/
theorem C5_quantitative_precedence :
    (∀ (t tol mn mx : Option ℚ) (value : PyObj) (v : ℚ),
        value.pyFloat = some v →
        evaluateQuantitative t tol mn mx value = (quantSpecPass t tol mn mx v, .num v)) ∧
    (∀ (value : PyObj) (v : ℚ), value.pyFloat = some v →
        ((evaluateQuantitative (some 10) (some 1) none none value).1 = true ↔
          9 ≤ v ∧ v ≤ 11)) ∧
    (∀ (b : CriterionBase) (units : String) (env : Env) (pdfPath : String)
        (value : PyObj) (v : ℚ),
        b.extractor ≠ "" →
        executeExtractor env pdfPath b.extractor = .ok (.value value) →
        value.pyFloat = some v →
        evalRule env pdfPath (.quantitative b (some 10) (some 1) none none units) =
          .ok ⟨if 9 ≤ v ∧ v ≤ 11 then "ok" else b.severity, some (.num v), none⟩) := by
  have habs : ∀ v : ℚ, |v - 10| ≤ 1 ↔ 9 ≤ v ∧ v ≤ 11 := by
    intro v
    rw [abs_le]
    constructor
    · intro hc; exact ⟨by linarith [hc.1], by linarith [hc.2]⟩
    · intro hc; exact ⟨by linarith [hc.1], by linarith [hc.2]⟩
  refine ⟨?_, ?_, ?_⟩
  · intro t tol mn mx value v h
    unfold evaluateQuantitative quantSpecPass
    rw [h]
    cases t <;> cases tol <;> first
      | rfl
      | (cases mn <;> cases mx <;> rfl)
  · intro value v h
    unfold evaluateQuantitative
    rw [h]
    simpa using habs v
  · intro b units env pdfPath value v hb hexec hv
    by_cases hcase : 9 ≤ v ∧ v ≤ 11
    · have h1 : |v - 10| ≤ 1 := (habs v).mpr hcase
      simp [evalRule, Criterion.extractor, Criterion.base, Criterion.severity, hb, hexec,
        evaluateQuantitative, hv, h1, hcase]
    · have h1 : ¬ (|v - 10| ≤ 1) := fun hc => hcase ((habs v).mp hc)
      simp [evalRule, Criterion.extractor, Criterion.base, Criterion.severity, hb, hexec,
        evaluateQuantitative, hv, h1, hcase]

/-- Witness for C5: the in-band value `19/2` and, through `run`'s rule
step, the out-of-band value `12` with an `error`-severity rule. -/
theorem C5_witness :
    evaluateQuantitative (some 10) (some 1) none none (.num (19/2)) =
        (quantSpecPass (some 10) (some 1) none none (19/2), .num (19/2)) ∧
    ((evaluateQuantitative (some 10) (some 1) none none (.num (19/2))).1 = true ↔
        9 ≤ (19/2 : ℚ) ∧ (19/2 : ℚ) ≤ 11) ∧
    evalRule envNum12 "d.pdf"
        (.quantitative ⟨"T99", "stub", "error", "m.f"⟩ (some 10) (some 1) none none "pt") =
      .ok ⟨if 9 ≤ (12 : ℚ) ∧ (12 : ℚ) ≤ 11 then "ok" else "error", some (.num 12), none⟩ :=
  ⟨C5_quantitative_precedence.1 (some 10) (some 1) none none (.num (19/2)) (19/2) rfl,
   C5_quantitative_precedence.2.1 (.num (19/2)) (19/2) rfl,
   C5_quantitative_precedence.2.2 ⟨"T99", "stub", "error", "m.f"⟩ "pt" envNum12 "d.pdf"
     (.num 12) 12 (by decide) rfl rfl⟩

/-- C1 counterexample: feeding the non-numeric string `"abc"` to the
`max_value=250` Quantitative rule yields a Verdict with the rule's
severity status (`"error"`) carrying the diagnostic in the *value* field —
not the claimed status `"skipped"` with a `reason`. -/
theorem C1_counterexample :
    run envStrAbc "d.pdf" [ruleAbstractWordcount] =
      .ok [("S02", ⟨"error", some (.str "non-numeric value (abc)"), none⟩)] ∧
    "error" ≠ "skipped" :=
  ⟨rfl, by decide⟩

/-- C1 (amended): when a Quantitative rule's extractor resolves to a value
that cannot be coerced to a real number, the run records a Verdict whose
status is the rule's own severity (never `ok`, but also never `skipped`)
and whose *value* field carries the non-numeric diagnostic; the `reason`
field stays empty. -/
theorem C1_amended_non_numeric (b : CriterionBase) (t tol mn mx : Option ℚ)
    (units : String) (env : Env) (pdfPath : String) (value : PyObj)
    (hb : b.extractor ≠ "")
    (hexec : executeExtractor env pdfPath b.extractor = .ok (.value value))
    (hnum : value.pyFloat = none) :
    evalRule env pdfPath (.quantitative b t tol mn mx units) =
      .ok ⟨b.severity, some (.str ("non-numeric value (" ++ value.pyStrOf ++ ")")), none⟩ := by
  simp [evalRule, Criterion.extractor, Criterion.base, Criterion.severity, hb, hexec,
    evaluateQuantitative, hnum]

/-- Witness for C1 (amended) at the concrete `"abc"`-returning stub. -/
theorem C1_witness :
    evalRule envStrAbc "d.pdf" ruleAbstractWordcount =
      .ok ⟨"error", some (.str ("non-numeric value (" ++ PyObj.pyStrOf (.str "abc") ++ ")")),
        none⟩ :=
  C1_amended_non_numeric ⟨"S02", "Abstract ≤250 words", "error", "m.f"⟩
    none none none (some 250) "words" envStrAbc "d.pdf" (.str "abc") (by decide) rfl rfl

end PdfCompliance

namespace PdfCompliance

/-- C2 counterexample: the dict comprehension behind `CRITERIA_BY_ID` is a
total construction — on a catalog with two criteria sharing id `X01` it
does not raise; it silently keeps only the later criterion (last-wins),
producing one entry for two criteria. -/
theorem C2_counterexample :
    criteriaById [dupCritA, dupCritB] = [("X01", dupCritB)] ∧
    (criteriaById [dupCritA, dupCritB]).length = 1 ∧
    ([dupCritA, dupCritB] : List Criterion).length = 2 :=
  ⟨rfl, rfl, rfl⟩

/-- C2 (amended): constructing `CRITERIA_BY_ID` never raises — duplicate
ids would be resolved last-wins with fewer entries (see the
counterexample) — and on the actual catalog, whose 27 ids are pairwise
distinct, the mapping pairs every criterion with its id, one entry per
criterion, in catalog order. -/
theorem C2_amended_lookup :
    (CRITERIA.map Criterion.cid).Nodup ∧
    CRITERIA_BY_ID = CRITERIA.map (fun c => (c.cid, c)) ∧
    CRITERIA_BY_ID.length = CRITERIA.length :=
  ⟨by decide, rfl, rfl⟩

/-- C4 counterexample: resolution of the empty reference propagates the
`ValueError` CPython's `import_module("")` raises (only
`ModuleNotFoundError` is caught), and a module whose import itself raises
propagates that exception out of the resolver. -/
theorem C4_counterexample :
    executeExtractor [] "doc.pdf" "" = .error "Empty module name" ∧
    executeExtractor envRaisingModule "doc.pdf" "m.f" = .error "boom" :=
  ⟨rfl, rfl⟩

/-- C4 (amended): provided every dotted prefix of the reference imports
either successfully or with `ModuleNotFoundError` (in particular the
reference is non-empty), resolution and execution always return a value or
a failure reason: provider-call exceptions and attribute/key failures are
caught, and no exception propagates. -/
theorem C4_amended_no_propagation (env : Env) (pdfPath path : String)
    (h : ∀ i : ℕ, 1 ≤ i → i ≤ (pySplit '.' path).length →
      (pyImport env (joinSep '.' ((pySplit '.' path).take i))).isRaises = false) :
    ∃ out, executeExtractor env pdfPath path = .ok out :=
  executeExtractor_total env pdfPath path h

/-- Witness for C4 (amended): the geometry reference against an empty
module environment resolves to a failure reason, without raising. -/
theorem C4_witness :
    ∃ out, executeExtractor [] "render.pdf" "geometry.page_metrics.left_margin_cm" = .ok out :=
  C4_amended_no_propagation [] "render.pdf" "geometry.page_metrics.left_margin_cm" (by
    intro i h1 h2
    have hlen : (pySplit '.' "geometry.page_metrics.left_margin_cm").length = 3 := rfl
    rw [hlen] at h2
    interval_cases i <;> rfl)

/-- C6: a completed `run` over the actual catalog yields exactly one
verdict per criterion, keyed by the criterion's id in catalog order, and
every verdict carries exactly one of `value`/`reason` with a status that
is `ok`, `skipped`, or the rule's own severity. -/
theorem forall₂_rowWf_keys :
    ∀ (rs : List Criterion) (l : Report), List.Forall₂ rowWf rs l →
      l.map Prod.fst = rs.map Criterion.cid := by
  intro rs l h
  induction h with
  | nil => rfl
  | cons hrow hrest ih => simp [ih, hrow.1]

theorem C6_report_shape (env : Env) (pdfPath : String) (report : Report)
    (h : run env pdfPath CRITERIA = .ok report) :
    report.map Prod.fst = CRITERIA.map Criterion.cid ∧
    List.Forall₂ rowWf CRITERIA report := by
  have hnodup : (CRITERIA.map Criterion.cid).Nodup := by decide
  obtain ⟨l, hout, hfa⟩ := runAux_spec env pdfPath CRITERIA [] report
    (by intro r hr kv hkv; cases hkv) hnodup h
  simp only [List.nil_append] at hout
  subst hout
  exact ⟨forall₂_rowWf_keys _ _ hfa, hfa⟩

/-- The report `run` produces over the actual catalog when no provider
module is importable: every rule skipped with a module-resolution reason. -/
def reportEmptyEnv : Report := [
  ("L01W", ⟨"skipped", none, some "module not found in path 'geometry.page_metrics.page_w_cm'"⟩),
  ("L01H", ⟨"skipped", none, some "module not found in path 'geometry.page_metrics.page_h_cm'"⟩),
  ("L02T", ⟨"skipped", none, some "module not found in path 'geometry.page_metrics.top_margin_cm'"⟩),
  ("L02B", ⟨"skipped", none, some "module not found in path 'geometry.page_metrics.bottom_margin_cm'"⟩),
  ("L02L", ⟨"skipped", none, some "module not found in path 'geometry.page_metrics.left_margin_cm'"⟩),
  ("L02R", ⟨"skipped", none, some "module not found in path 'geometry.page_metrics.right_margin_cm'"⟩),
  ("L03", ⟨"skipped", none, some "module not found in path 'geometry.structure.single_column_double_spaced'"⟩),
  ("L04", ⟨"skipped", none, some "module not found in path 'structure.page_count'"⟩),
  ("L05", ⟨"skipped", none, some "module not found in path 'structure.consecutive_page_numbers'"⟩),
  ("L06", ⟨"skipped", none, some "module not found in path 'geometry.page_metrics.footnote_baseline_cm'"⟩),
  ("T01", ⟨"skipped", none, some "module not found in path 'fonts.most_common_body_font'"⟩),
  ("T02_title", ⟨"skipped", none, some "module not found in path 'fonts.fontsize.title_pt'"⟩),
  ("T02_body", ⟨"skipped", none, some "module not found in path 'fonts.fontsize.body_pt'"⟩),
  ("T02_captions", ⟨"skipped", none, some "module not found in path 'fonts.fontsize.smalltext_pt'"⟩),
  ("S00", ⟨"skipped", none, some "module not found in path 'structure.has_title_page'"⟩),
  ("S01", ⟨"skipped", none, some "module not found in path 'structure.title_text'"⟩),
  ("S02", ⟨"skipped", none, some "module not found in path 'structure.abstract_wordcount'"⟩),
  ("S03", ⟨"skipped", none, some "module not found in path 'structure.conclusions_vs_abstract'"⟩),
  ("S04", ⟨"skipped", none, some "module not found in path 'structure.highlights_ok'"⟩),
  ("S05", ⟨"skipped", none, some "module not found in path 'structure.has_credit_statement'"⟩),
  ("S06", ⟨"skipped", none, some "module not found in path 'structure.ai_use_statement'"⟩),
  ("S07", ⟨"skipped", none, some "module not found in path 'structure.keyword_count'"⟩),
  ("R01", ⟨"skipped", none, some "module not found in path 'references.count'"⟩),
  ("R02", ⟨"skipped", none, some "module not found in path 'references.share_recent_pct'"⟩),
  ("R03", ⟨"skipped", none, some "module not found in path 'references.share_preprint_pct'"⟩),
  ("R04", ⟨"skipped", none, some "module not found in path 'references.bulk_citation_commentary'"⟩),
  ("R05", ⟨"skipped", none, some "module not found in path 'references.count_pattern_recognition'"⟩)]

/-- Witness for C6 at the empty import environment. -/
theorem C6_witness :
    reportEmptyEnv.map Prod.fst = CRITERIA.map Criterion.cid ∧
    List.Forall₂ rowWf CRITERIA reportEmptyEnv :=
  C6_report_shape [] "d.pdf" reportEmptyEnv rfl

end PdfCompliance
